import Mathlib

/-!
Shallow embedding of the freelens-ai Analysis Engine (TypeScript sources under
`src/renderer/services` and `src/renderer/utils`) together with theorems about
the behaviour its specification describes.

JavaScript-specific conventions used throughout the embedding:
* a JS `RegExp` engine is abstracted as a function `String → Option (String → Bool)`
  (compiling a pattern with the `"i"` flag either yields the total matcher
  `RegExp.test` or fails, i.e. `new RegExp` throws / `safeRegex` returns `null`);
  all structural checks performed on the pattern text itself (length limit,
  ReDoS heuristics) are embedded concretely;
* optional / possibly-`undefined` JS values are `Option`s; the few places where
  JS falsiness of `""` or `0` could differ from `Option.isNone` are noted inline;
* `Date.now()` is passed in as an explicit `now : Nat`; `Math.random`-based id
  generation is an explicit `genId` parameter; file/durable I/O (`savePatterns`)
  is outside the model, which returns the in-memory store.
-/

namespace FreelensAI

/-! ### JS string primitives

Character-list implementations of the JS string methods the sources use
(`toLowerCase`, `endsWith`, `startsWith`, `includes` on a single character).
They agree with the usual implementations on the ASCII identifiers these
programs handle, and being structurally recursive they evaluate inside the
kernel. -/

/-- JS `String.prototype.toLowerCase` (ASCII). -/
def jsToLowerCase (s : String) : String := String.mk (s.data.map Char.toLower)

/-- JS `String.prototype.endsWith`. -/
def jsEndsWith (s suffix : String) : Bool := suffix.data.isSuffixOf s.data

/-- JS `String.prototype.startsWith`. -/
def jsStartsWith (s pre : String) : Bool := pre.data.isPrefixOf s.data

/-- JS `String.prototype.includes` with a single-character needle. -/
def jsIncludesChar (s : String) (c : Char) : Bool := s.data.contains c

/-! ## Safe Regular Expression Evaluator (src/renderer/utils/safe-regex.ts) -/

/-- Abstraction of the JS `RegExp` compiler at flags `"i"`: `none` models a
`new RegExp` that throws, `some test` models the compiled regex's `test`. -/
abbrev RegexEngine := String → Option (String → Bool)

/-- The `MAX_REGEX_LENGTH` from safe-regex.ts. -/
def MAX_REGEX_LENGTH : Nat := 500

/-- Characters matched by the `[+*]` classes of the ReDoS heuristics. -/
def isQuantChar (c : Char) : Bool := c = '+' || c = '*'

/-- Split a character list at the first `')'`: returns the characters strictly
before it and the characters strictly after it. -/
def splitAtRParen : List Char → Option (List Char × List Char)
  | [] => none
  | c :: rest =>
    if c = ')' then some ([], rest)
    else
      match splitAtRParen rest with
      | some (mid, post) => some (c :: mid, post)
      | none => none

/-- The `test` of the first heuristic regex `(\([^)]*[+*][^)]*\))[+*]`: some `'('`
is followed (with no intervening `')'`) by a quantifier, then `')'`, then a
quantifier.  Since `[^)]` cannot cross a `')'`, the closing paren of a match is
necessarily the first `')'` after the chosen `'('`. -/
def redosHeuristic1 : List Char → Bool
  | [] => false
  | c :: rest =>
    (if c = '(' then
      match splitAtRParen rest with
      | some (mid, post) =>
        mid.any isQuantChar &&
          (match post with
           | q :: _ => isQuantChar q
           | [] => false)
      | none => false
    else false) || redosHeuristic1 rest

/-- The `test` of the second heuristic regex `(\([^)]*\|[^)]*\))[+*]{2,}`: a
parenthesised alternation immediately followed by at least two quantifiers. -/
def redosHeuristic2 : List Char → Bool
  | [] => false
  | c :: rest =>
    (if c = '(' then
      match splitAtRParen rest with
      | some (mid, post) =>
        mid.any (fun x => x = '|') &&
          (match post with
           | q1 :: q2 :: _ => isQuantChar q1 && isQuantChar q2
           | _ => false)
      | none => false
    else false) || redosHeuristic2 rest

/-- The `safeRegex` from safe-regex.ts: reject empty (JS falsy) or overlong
patterns, reject patterns matching either ReDoS heuristic, then compile. -/
def safeRegex (engine : RegexEngine) (pattern : String) : Option (String → Bool) :=
  if pattern = "" || pattern.length > MAX_REGEX_LENGTH then none
  else if redosHeuristic1 pattern.data || redosHeuristic2 pattern.data then none
  else engine pattern

/-- The `safeRegexTest` from safe-regex.ts: truncate the input to
`maxInputLength` characters before testing. -/
def safeRegexTest (regex : String → Bool) (input : String)
    (maxInputLength : Nat := 5000) : Bool :=
  let text := if input.length > maxInputLength then input.take maxInputLength else input
  regex text

/-! ## Pattern Learning Store (src/renderer/services/pattern-storage.ts) -/

/-- The `level` field of a stored pattern. -/
inductive PatternLevel where
  | error
  | warning
  | info
  | critical
deriving DecidableEq, Repr

/-- The `StoredPattern` from pattern-storage.ts.  The TS field `example` is named
`exampleLine` here because `example` is a Lean keyword. -/
structure StoredPattern where
  id : String
  label : String
  regex : String
  level : PatternLevel
  discoveredAt : Nat
  hitCount : Nat
  description : String
  exampleLine : String
deriving DecidableEq, Repr

/-- The `PatternRegex` from pattern-storage.ts (candidate sent by the backend). -/
structure PatternRegex where
  regex : String
  level : PatternLevel
  label : String
  description : String
deriving DecidableEq, Repr

/-- The `PatternStore` from pattern-storage.ts; `scopes` is a JS `Record`, modelled
as a function (absent key = `none`). -/
structure PatternStore where
  version : Nat
  updatedAt : Nat
  scopes : String → Option (List StoredPattern)

/-- The `MAX_PATTERNS_PER_SCOPE` from pattern-storage.ts. -/
def MAX_PATTERNS_PER_SCOPE : Nat := 50

/-- The exact-duplicate branch of `mergeAIPatterns`: `existing.find` locates
the first entry with an identical regex string and it is mutated in place
(`hitCount` bumped, `label`/`description` refreshed). -/
def bumpExact (np : PatternRegex) : List StoredPattern → List StoredPattern
  | [] => []
  | e :: rest =>
    if e.regex == np.regex then
      { e with hitCount := e.hitCount + 1, label := np.label,
               description := np.description } :: rest
    else e :: bumpExact np rest

/-- The overlap-dedup loop of `mergeAIPatterns`: walk the existing patterns in
order; an entry whose regex fails to compile is skipped (`catch`); the first
entry matching at least 80% of the candidate's matched lines gets its
`hitCount` bumped and the scan stops (`isDuplicate`).  Returns the updated
list when a duplicate was found. -/
def bumpOverlap (engine : RegexEngine) (newMatches : List String) :
    List StoredPattern → Option (List StoredPattern)
  | [] => none
  | ep :: rest =>
    match engine ep.regex with
    | some existingRegex =>
      let overlap := (newMatches.filter (fun l => existingRegex l)).length
      if ((overlap : ℚ) / (newMatches.length : ℚ) ≥ 0.8) then
        some ({ ep with hitCount := ep.hitCount + 1 } :: rest)
      else
        match bumpOverlap engine newMatches rest with
        | some rest2 => some (ep :: rest2)
        | none => none
    | none =>
      match bumpOverlap engine newMatches rest with
      | some rest2 => some (ep :: rest2)
      | none => none

/-- Processing of one candidate inside the `for (const np of newPatterns)` loop
of `mergeAIPatterns`.  The state is the scope's pattern list together with the
number of insertions made so far in this call (used to index `genId`). -/
def mergeOne (engine : RegexEngine) (examples : String → Option String)
    (logLines : Option (List String)) (now : Nat) (genId : Nat → String)
    (st : List StoredPattern × Nat) (np : PatternRegex) :
    List StoredPattern × Nat :=
  let ex := st.1
  let inserted := st.2
  match engine np.regex with
  | none => (ex, inserted)
  | some newRegex =>
    if ex.any (fun e => e.regex == np.regex) then
      (bumpExact np ex, inserted)
    else
      let overlapResult : Option (List StoredPattern) :=
        match logLines with
        | some lls =>
          if lls.length > 0 then
            let newMatches := lls.filter (fun l => newRegex l)
            if newMatches.length > 0 then bumpOverlap engine newMatches ex
            else none
          else none
        | none => none
      match overlapResult with
      | some ex2 => (ex2, inserted)
      | none =>
        (ex ++ [{ id := genId inserted, label := np.label, regex := np.regex,
                  level := np.level, discoveredAt := now, hitCount := 1,
                  description := np.description,
                  exampleLine := (examples np.regex).getD "" }],
         inserted + 1)

/-- The comparator `(a, b) => b.hitCount - a.hitCount || b.discoveredAt - a.discoveredAt`
as a `≤`-style boolean relation: sort by `hitCount` descending, then by
`discoveredAt` descending (JS `Array.sort` is stable, as is `mergeSort`). -/
def patternSortLE (a b : StoredPattern) : Bool :=
  if a.hitCount = b.hitCount then decide (b.discoveredAt ≤ a.discoveredAt)
  else decide (b.hitCount ≤ a.hitCount)

/-- The `mergeAIPatterns` from pattern-storage.ts.  The asynchronous
`savePatterns` call at the end performs durable I/O only and does not change
the in-memory scopes, so the model returns the mutated store. -/
def mergeAIPatterns (engine : RegexEngine) (store : PatternStore) (scope : String)
    (newPatterns : List PatternRegex) (examples : String → Option String)
    (logLines : Option (List String)) (now : Nat) (genId : Nat → String) :
    PatternStore :=
  let existing0 := (store.scopes scope).getD []
  let merged :=
    (newPatterns.foldl (mergeOne engine examples logLines now genId) (existing0, 0)).1
  let capped :=
    if merged.length > MAX_PATTERNS_PER_SCOPE then
      (merged.mergeSort patternSortLE).take MAX_PATTERNS_PER_SCOPE
    else merged
  { store with scopes := fun s => if s = scope then some capped else store.scopes s }

/-! ## Pattern validation in log analysis (src/renderer/services/log-analyze.ts) -/

/-- The `MIN_PATTERN_MATCHES` from log-analyze.ts. -/
def MIN_PATTERN_MATCHES : Nat := 3

/-- The inner counting loop of `validatePatternRegexes`: bump `matchCount` per
matching line and return `true` as soon as it reaches `MIN_PATTERN_MATCHES`. -/
def hasMinMatches (regex : String → Bool) : List String → Nat → Bool
  | [], _ => false
  | l :: rest, matchCount =>
    if safeRegexTest regex l then
      if matchCount + 1 ≥ MIN_PATTERN_MATCHES then true
      else hasMinMatches regex rest (matchCount + 1)
    else hasMinMatches regex rest matchCount

/-- The `validatePatternRegexes` from log-analyze.ts: keep a backend-returned
pattern only when its regex passes `safeRegex` and matches at least
`MIN_PATTERN_MATCHES` of the log lines under `safeRegexTest`. -/
def validatePatternRegexes (engine : RegexEngine)
    (patterns : Option (List PatternRegex)) (logLines : List String) :
    List PatternRegex :=
  match patterns with
  | none => []
  | some ps =>
    if ps.length = 0 then []
    else
      ps.filter (fun p =>
        match safeRegex engine p.regex with
        | none => false
        | some regex => hasMinMatches regex logLines 0)

/-- The `patternRegexes` post-processing step of `analyzeLogsFn` (the
`data.patternRegexes = validatePatternRegexes(...)` guard). -/
def finalizePatternRegexes (engine : RegexEngine)
    (patternRegexes : Option (List PatternRegex)) (logLines : List String) :
    Option (List PatternRegex) :=
  match patternRegexes with
  | some ps =>
    if ps.length > 0 then some (validatePatternRegexes engine (some ps) logLines)
    else some ps
  | none => none

/-! ## Bounded Cache (src/renderer/services/bounded-cache.ts) -/

/-- The `CacheEntry` from bounded-cache.ts. -/
structure CacheEntry (T : Type) where
  timestamp : Nat
  data : T
deriving DecidableEq, Repr

/-- The private JS `Map` of `BoundedCache`, modelled as an insertion-ordered
association list whose keys are unique. -/
abbrev CacheMap (T : Type) := List (String × CacheEntry T)

/-- The `Map.get`. -/
def mapGet {T : Type} (m : CacheMap T) (k : String) : Option (CacheEntry T) :=
  (m.find? (fun e => e.1 == k)).map (fun e => e.2)

/-- The `Map.set`: replace in place when the key exists (insertion position is
kept), otherwise append. -/
def mapSet {T : Type} (m : CacheMap T) (k : String) (v : CacheEntry T) : CacheMap T :=
  if m.any (fun e => e.1 == k) then
    m.map (fun e => if e.1 == k then (k, v) else e)
  else m ++ [(k, v)]

/-- The `Map.delete`. -/
def mapDelete {T : Type} (m : CacheMap T) (k : String) : CacheMap T :=
  m.filter (fun e => ¬ (e.1 == k))

/-- The `scopedKey` from bounded-cache.ts: prefix with the active cluster id. -/
def scopedKey (clusterId key : String) : String :=
  clusterId ++ ":" ++ key

/-- The `while (this.map.size >= this.maxSize)` eviction loop of `set`: delete
the first (oldest-inserted) key until the size drops below `maxSize` (or the
map is exhausted). -/
def evictWhileFull {T : Type} (maxSize : Nat) : CacheMap T → CacheMap T
  | [] => []
  | e :: rest =>
    if maxSize ≤ (e :: rest).length then evictWhileFull maxSize rest
    else e :: rest

/-- The `BoundedCache.set`: evict while at capacity, then `Map.set` the scoped key
with a fresh timestamp. -/
def cacheSet {T : Type} (clusterId : String) (maxSize : Nat) (now : Nat)
    (m : CacheMap T) (key : String) (data : T) : CacheMap T :=
  let sk := scopedKey clusterId key
  mapSet (evictWhileFull maxSize m) sk { timestamp := now, data := data }

/-- The `BoundedCache.get`: a hit older than the TTL is deleted and reported as a
miss.  Returns the result together with the possibly-updated map. -/
def cacheGet {T : Type} (clusterId : String) (ttl : Nat) (now : Nat)
    (m : CacheMap T) (key : String) : Option (CacheEntry T) × CacheMap T :=
  let sk := scopedKey clusterId key
  match mapGet m sk with
  | none => (none, m)
  | some entry =>
    if now - entry.timestamp > ttl then (none, mapDelete m sk)
    else (some entry, m)

/-- Fold `cacheSet` over a list of `(key, now, data)` inserts. -/
def cacheSetMany {T : Type} (clusterId : String) (maxSize : Nat) :
    CacheMap T → List (String × Nat × T) → CacheMap T
  | m, [] => m
  | m, (k, n, d) :: rest =>
    cacheSetMany clusterId maxSize (cacheSet clusterId maxSize n m k d) rest

/-! ## Retry Coordinator (src/renderer/services/retry.ts) -/

/-- The fields of a JS error that `retryWithBackoff` inspects.  The JS access
`err.status || err.statusCode` is collapsed into the single `status` field
(HTTP status codes are nonzero, so JS falsiness of `0` plays no role here). -/
structure JsError where
  name : Option String
  status : Option Nat
  code : Option String
deriving DecidableEq, Repr

/-- The `RETRYABLE_STATUS_CODES` from retry.ts. -/
def RETRYABLE_STATUS_CODES : List Nat := [429, 503, 529]

/-- The `NON_RETRYABLE_STATUS_CODES` from retry.ts. -/
def NON_RETRYABLE_STATUS_CODES : List Nat := [400, 403]

/-- The `DOMException("Aborted", "AbortError")` thrown on cancellation. -/
def abortError : JsError := { name := some "AbortError", status := none, code := none }

/-- The `new Error("Retry failed")` fallback of the final `throw`. -/
def retryFailedError : JsError := { name := some "Error", status := none, code := none }

/-- One run of the `for (attempt = 0; attempt <= maxRetries; attempt++)` loop
of `retryWithBackoff`.  `fn` gives each invocation's outcome by attempt index;
`sigBefore n` models `signal.aborted` at the check before attempt `n`;
`sigDuringWait n` models an abort firing during the backoff wait that follows
attempt `n`.  Returns the outcome together with the number of times `fn` was
invoked.  `fuel` is `maxRetries + 1 - attempt`, so the `fuel = 0` case is the
fall-through `throw lastError` after the loop. -/
def retryLoop {T : Type} (fn : Nat → Except JsError T) (sigBefore : Nat → Bool)
    (sigDuringWait : Nat → Bool) (maxRetries : Nat)
    (onUnauthorized : Option (Nat → Bool)) :
    Nat → Nat → Nat → Option JsError → Except JsError T × Nat
  | _, 0, calls, lastError => (.error (lastError.getD retryFailedError), calls)
  | attempt, fuel + 1, calls, _ =>
    if sigBefore attempt then (.error abortError, calls)
    else
      match fn attempt with
      | .ok v => (.ok v, calls + 1)
      | .error err =>
        let calls' := calls + 1
        if err.name = some "AbortError" then (.error err, calls')
        else
          let status := err.status
          if (match status with
              | some s => NON_RETRYABLE_STATUS_CODES.contains s
              | none => false) then (.error err, calls')
          else if status = some 401 ∧ onUnauthorized.isSome ∧ attempt < maxRetries then
            if (onUnauthorized.getD (fun _ => false)) attempt then
              retryLoop fn sigBefore sigDuringWait maxRetries onUnauthorized
                (attempt + 1) fuel calls' (some err)
            else (.error err, calls')
          else
            let isRetryable :=
              (match status with
               | some s => RETRYABLE_STATUS_CODES.contains s
               | none => true)
              || err.code == some "ECONNRESET" || err.code == some "ETIMEDOUT"
            if ¬ isRetryable ∨ maxRetries ≤ attempt then (.error err, calls')
            else if sigDuringWait attempt then (.error abortError, calls')
            else
              retryLoop fn sigBefore sigDuringWait maxRetries onUnauthorized
                (attempt + 1) fuel calls' (some err)

/-- The `retryWithBackoff` from retry.ts (returning the invocation count as a
ghost observation). -/
def retryWithBackoff {T : Type} (fn : Nat → Except JsError T)
    (sigBefore : Nat → Bool) (sigDuringWait : Nat → Bool)
    (maxRetries : Nat := 2) (onUnauthorized : Option (Nat → Bool) := none) :
    Except JsError T × Nat :=
  retryLoop fn sigBefore sigDuringWait maxRetries onUnauthorized 0 (maxRetries + 1) 0 none

/-! ## Relationship Discovery Engine (src/renderer/services/relationship-discovery.ts)

The cluster API collaborator ("GET JSON at REST path") is abstracted as a
function from path strings to optional results; `apiGetSafe`'s `catch` is
folded into the `Option`. -/

/-- One entry of `metadata.ownerReferences` (the fields the engine reads). -/
structure OwnerRef where
  kind : String
  name : String
  apiVersion : Option String
  uid : Option String
deriving DecidableEq, Repr

/-- A `status.conditions` entry (the fields `summarizeStatus` reads). -/
structure KCondition where
  type : String
  status : String
  reason : Option String
deriving DecidableEq, Repr

/-- The `status` sub-object (the fields `summarizeStatus` reads). -/
structure KStatus where
  phase : Option String
  conditions : Option (List KCondition)
  readyReplicas : Option Int
deriving DecidableEq, Repr

/-- The `spec` sub-object (the fields `summarizeStatus` reads).  The TS field
`namespace` is named `nspace` because `namespace` is a Lean keyword. -/
structure KSpec where
  replicas : Option Int
deriving DecidableEq, Repr

/-- The `metadata` of a cluster object (the fields the engine reads). -/
structure KMeta where
  name : Option String
  nspace : Option String
  uid : Option String
  ownerReferences : List OwnerRef
deriving DecidableEq, Repr

/-- A cluster object as the discovery engine sees it. -/
structure KObj where
  kind : Option String
  apiVersion : Option String
  metadata : Option KMeta
  spec : Option KSpec
  status : Option KStatus
deriving DecidableEq, Repr

/-- The `RelatedResource` from relationship-discovery.ts (`namespace` renamed to
`nspace`). -/
structure RelatedResource where
  kind : String
  apiVersion : String
  name : String
  nspace : Option String
  relationship : String
  status : Option String
  detail : Option String
deriving DecidableEq, Repr

/-- The `summarizeStatus` from relationship-discovery.ts. -/
def summarizeStatus (obj : KObj) : String :=
  let phase := obj.status.bind KStatus.phase
  if obj.kind = some "Pod" || phase.isSome then phase.getD "Unknown"
  else
    match obj.status.bind KStatus.conditions with
    | some conditions =>
      if conditions.length > 0 then
        match conditions.find? (fun c => c.type == "Ready" || c.type == "Available") with
        | some ready =>
          if ready.status = "True" then "Ready"
          else "NotReady (" ++ ready.reason.getD "" ++ ")"
        | none =>
          String.intercalate ", " (conditions.map (fun c => c.type ++ "=" ++ c.status))
      else
        summarizeReplicas obj
    | none => summarizeReplicas obj
where
  /-- The replica-based fallback branch of `summarizeStatus`. -/
  summarizeReplicas (obj : KObj) : String :=
    match obj.status.bind KStatus.readyReplicas with
    | some ready =>
      let desired :=
        match obj.spec.bind KSpec.replicas with
        | some d => toString d
        | none => "?"
      toString ready ++ "/" ++ desired ++ " ready"
    | none => "—"

/-- The `guessPluralName` from relationship-discovery.ts. -/
def guessPluralName (kind : String) : String :=
  if kind = "Ingress" then "ingresses"
  else if kind = "NetworkPolicy" then "networkpolicies"
  else if kind = "Endpoints" then "endpoints"
  else if kind = "EndpointSlice" then "endpointslices"
  else
    let lower := jsToLowerCase kind
    if jsEndsWith lower "s" then lower
    else if jsEndsWith lower "y" then String.mk lower.data.dropLast ++ "ies"
    else lower ++ "s"

/-- The `buildResourcePath` from relationship-discovery.ts (its `| null` result
type is never produced by the source body, so the model returns `String`). -/
def buildResourcePath (apiVersion kind : String) (ns : Option String)
    (name : Option String) : String :=
  let plural := guessPluralName kind
  let basePath :=
    if jsIncludesChar apiVersion '/' then "/apis/" ++ apiVersion
    else "/api/" ++ apiVersion
  match ns, name with
  | some n, some nm => basePath ++ "/namespaces/" ++ n ++ "/" ++ plural ++ "/" ++ nm
  | some n, none => basePath ++ "/namespaces/" ++ n ++ "/" ++ plural
  | none, some nm => basePath ++ "/" ++ plural ++ "/" ++ nm
  | none, none => basePath ++ "/" ++ plural

/-- The `resolveOwnerRef` from relationship-discovery.ts. -/
def resolveOwnerRef (api : String → Option KObj) (ref : OwnerRef)
    (ns : Option String) : Option KObj :=
  api (buildResourcePath (ref.apiVersion.getD "v1") ref.kind ns (some ref.name))

/-- The `for (const ref of refs)` inner loop of `walkOwnersUp` over the
enumerated references of one level.  `current` is reassigned mid-loop when the
first reference's owner is fetched (so later references of the same level read
the new object's namespace, as in the source); `replaced` tracks whether
`current` still *is* (reference equality) the original object. -/
def walkInner (api : String → Option KObj) (depth : Nat) :
    List (Nat × OwnerRef) → KObj → Bool → List RelatedResource →
    KObj × Bool × List RelatedResource
  | [], current, replaced, acc => (current, replaced, acc)
  | (idx, ref) :: rest, current, replaced, acc =>
    let ns := current.metadata.bind KMeta.nspace
    let base : RelatedResource :=
      { kind := ref.kind, apiVersion := ref.apiVersion.getD "", name := ref.name,
        nspace := ns,
        relationship :=
          if depth = 0 then "direct owner"
          else "owner (depth " ++ toString (depth + 1) ++ ")",
        status := none, detail := none }
    match resolveOwnerRef api ref ns with
    | some ownerObj =>
      let owner := { base with status := some (summarizeStatus ownerObj) }
      if idx = 0 then walkInner api depth rest ownerObj true (acc ++ [owner])
      else walkInner api depth rest current replaced (acc ++ [owner])
    | none => walkInner api depth rest current replaced (acc ++ [base])

/-- The `for (depth = 0; depth < maxDepth; depth++)` outer loop of
`walkOwnersUp`; `fuel = maxDepth - depth`.  The `current === object &&
depth === 0` stop check is modelled through the `replaced` flag. -/
def walkLoop (api : String → Option KObj) :
    Nat → Nat → KObj → Bool → List RelatedResource → List RelatedResource
  | 0, _, _, _, acc => acc
  | fuel + 1, depth, current, replaced, acc =>
    let refs := (current.metadata.map KMeta.ownerReferences).getD []
    if refs.isEmpty then acc
    else
      let step := walkInner api depth refs.enum current replaced acc
      if !step.2.1 && depth = 0 then step.2.2
      else walkLoop api fuel (depth + 1) step.1 step.2.1 step.2.2

/-- The `walkOwnersUp` from relationship-discovery.ts. -/
def walkOwnersUp (api : String → Option KObj) (object : KObj)
    (maxDepth : Nat := 5) : List RelatedResource :=
  walkLoop api maxDepth 0 object false []

/-- One entry of `CHILD_SEARCH_PATHS`. -/
structure SearchPath where
  groupVersion : String
  resource : String
  kind : String
deriving DecidableEq, Repr

/-- The `CHILD_SEARCH_PATHS` from relationship-discovery.ts (21 entries). -/
def CHILD_SEARCH_PATHS : List SearchPath :=
  [⟨"v1", "pods", "Pod"⟩,
   ⟨"v1", "services", "Service"⟩,
   ⟨"v1", "configmaps", "ConfigMap"⟩,
   ⟨"v1", "secrets", "Secret"⟩,
   ⟨"v1", "persistentvolumeclaims", "PersistentVolumeClaim"⟩,
   ⟨"v1", "events", "Event"⟩,
   ⟨"apps/v1", "replicasets", "ReplicaSet"⟩,
   ⟨"apps/v1", "deployments", "Deployment"⟩,
   ⟨"apps/v1", "statefulsets", "StatefulSet"⟩,
   ⟨"apps/v1", "daemonsets", "DaemonSet"⟩,
   ⟨"apps/v1", "controllerrevisions", "ControllerRevision"⟩,
   ⟨"batch/v1", "jobs", "Job"⟩,
   ⟨"batch/v1", "cronjobs", "CronJob"⟩,
   ⟨"networking.k8s.io/v1", "ingresses", "Ingress"⟩,
   ⟨"autoscaling/v2", "horizontalpodautoscalers", "HorizontalPodAutoscaler"⟩,
   ⟨"policy/v1", "poddisruptionbudgets", "PodDisruptionBudget"⟩,
   ⟨"cert-manager.io/v1", "certificates", "Certificate"⟩,
   ⟨"cert-manager.io/v1", "certificaterequests", "CertificateRequest"⟩,
   ⟨"cert-manager.io/v1", "orders", "Order"⟩,
   ⟨"acme.cert-manager.io/v1", "orders", "Order"⟩,
   ⟨"acme.cert-manager.io/v1", "challenges", "Challenge"⟩]

/-- The `batchSize = 5` slicing of the `for (let i = 0; ...; i += batchSize)`
loop: the list of successive batches (`slice(i, i + 5)`). -/
def chunk5 {α : Type} : List α → List (List α)
  | [] => []
  | [a] => [[a]]
  | [a, b] => [[a, b]]
  | [a, b, c] => [[a, b, c]]
  | [a, b, c, d] => [[a, b, c, d]]
  | a :: b :: c :: d :: e :: rest => [a, b, c, d, e] :: chunk5 rest

/-- One list request of a built-in batch of `findChildren`: build the list
path, fetch (`none` models both a failed request and a missing `items` field),
keep the items whose `ownerReferences` contain the target uid, and map them to
`RelatedResource`s. -/
def childBatchQuery (api : String → Option (List KObj)) (ns : Option String)
    (uid : String) (p : SearchPath) : List RelatedResource :=
  let basePath :=
    if jsIncludesChar p.groupVersion '/' then "/apis/" ++ p.groupVersion
    else "/api/" ++ p.groupVersion
  let listPath :=
    match ns with
    | some n => basePath ++ "/namespaces/" ++ n ++ "/" ++ p.resource ++ "?limit=100"
    | none => basePath ++ "/" ++ p.resource ++ "?limit=100"
  match api listPath with
  | none => []
  | some items =>
    ((items.filter (fun item =>
        ((item.metadata.map KMeta.ownerReferences).getD []).any
          (fun ref => ref.uid == some uid))).map
      (fun item =>
        { kind := (item.kind).getD p.kind,
          apiVersion := p.groupVersion,
          name := ((item.metadata.bind KMeta.name)).getD "",
          nspace := item.metadata.bind KMeta.nspace,
          relationship := "child (owned)",
          status := some (summarizeStatus item),
          detail := none : RelatedResource }))

/-- The batched built-in search loop of `findChildren`.  `timedOut b` models
the 10 s `Promise.race` timeout winning for batch index `b` (the batch's five
requests are still issued, but its results are discarded by the `catch`).
Returns the accumulated children together with the number of batches issued. -/
def childBatchesLoop (api : String → Option (List KObj)) (timedOut : Nat → Bool)
    (ns : Option String) (uid : String) (maxChildren : Nat) :
    List (List SearchPath) → Nat → List RelatedResource →
    List RelatedResource × Nat
  | [], _, acc => (acc, 0)
  | batch :: rest, bIdx, acc =>
    let results :=
      if timedOut bIdx then []
      else (batch.map (childBatchQuery api ns uid)).flatten
    let acc' := acc ++ results
    if maxChildren ≤ acc'.length then (acc', 1)
    else
      let next := childBatchesLoop api timedOut ns uid maxChildren rest (bIdx + 1) acc'
      (next.1, next.2 + 1)

/-- One entry of an API-group discovery response (`APIResource`). -/
structure APIResource where
  name : String
  kind : Option String
  namespaced : Bool
deriving DecidableEq, Repr

/-- The supplemental CRD-group loop of `findChildren` over the (already
truncated) namespaced resources of the object's own API group.  A missing
`items` result hits `continue`, skipping the max-children break but still
having issued the request.  Returns the accumulated children together with the
number of supplemental list requests issued. -/
def supplementalLoop (api : String → Option (List KObj)) (objApiVersion : String)
    (ns : Option String) (uid : String) (maxChildren : Nat) :
    List APIResource → List RelatedResource → List RelatedResource × Nat
  | [], acc => (acc, 0)
  | res :: rest, acc =>
    let basePath := "/apis/" ++ objApiVersion
    let listPath :=
      match ns with
      | some n => basePath ++ "/namespaces/" ++ n ++ "/" ++ res.name ++ "?limit=100"
      | none => basePath ++ "/" ++ res.name ++ "?limit=100"
    match api listPath with
    | none =>
      let next := supplementalLoop api objApiVersion ns uid maxChildren rest acc
      (next.1, next.2 + 1)
    | some items =>
      let acc' := acc ++
        ((items.filter (fun item =>
            ((item.metadata.map KMeta.ownerReferences).getD []).any
              (fun ref => ref.uid == some uid))).map
          (fun item =>
            { kind := (res.kind).getD ((item.kind).getD res.name),
              apiVersion := objApiVersion,
              name := ((item.metadata.bind KMeta.name)).getD "",
              nspace := item.metadata.bind KMeta.nspace,
              relationship := "child (owned)",
              status := some (summarizeStatus item),
              detail := none : RelatedResource }))
      if maxChildren ≤ acc'.length then (acc', 1)
      else
        let next := supplementalLoop api objApiVersion ns uid maxChildren rest acc'
        (next.1, next.2 + 1)

/-- The result of `findChildren` together with ghost request counters. -/
structure ChildSearchStats where
  children : List RelatedResource
  builtinBatches : Nat
  supplementalRequests : Nat
deriving Repr

/-- The body of `findChildren` once the uid guard has passed: the batched
built-in search followed by the conditional supplemental CRD-group pass. -/
def findChildrenCore (api : String → Option (List KObj)) (timedOut : Nat → Bool)
    (groupRes : String → List APIResource) (maxChildren : Nat)
    (ns : Option String) (objApiVersion : String) (uid : String) :
    ChildSearchStats :=
  let builtin :=
    childBatchesLoop api timedOut ns uid maxChildren (chunk5 CHILD_SEARCH_PATHS) 0 []
  if jsIncludesChar objApiVersion '/' && !(jsStartsWith objApiVersion "apps/")
      && !(jsStartsWith objApiVersion "batch/") then
    let resources := groupRes objApiVersion
    let namespacedResources :=
      resources.filter (fun r => r.namespaced && !(jsIncludesChar r.name '/'))
    let supp :=
      supplementalLoop api objApiVersion ns uid maxChildren
        (namespacedResources.take 10) builtin.1
    ⟨supp.1, builtin.2, supp.2⟩
  else ⟨builtin.1, builtin.2, 0⟩

/-- The `findChildren` from relationship-discovery.ts.  `groupRes gv` models
`discoverGroupResources(gv)` (whose own `catch` already yields `[]`). -/
def findChildren (api : String → Option (List KObj)) (timedOut : Nat → Bool)
    (groupRes : String → List APIResource) (maxChildren : Nat) (object : KObj) :
    ChildSearchStats :=
  match object.metadata.bind KMeta.uid with
  | none => ⟨[], 0, 0⟩
  | some uid =>
    findChildrenCore api timedOut groupRes maxChildren
      (object.metadata.bind KMeta.nspace) ((object.apiVersion).getD "") uid

/-- The outcome of one discovery strategy's promise: `.ok` is resolution with
a list of related resources, `.error` is rejection. -/
abbrev StrategyOutcome := Except String (List RelatedResource)

/-- The `strategy(object).catch(() => [])` wrapper of `discoverRelationships`. -/
def catchEmpty (r : StrategyOutcome) : List RelatedResource :=
  r.toOption.getD []

/-- The `ResourceRelationships` from relationship-discovery.ts. -/
structure ResourceRelationships where
  owners : List RelatedResource
  children : List RelatedResource
  selectorTargets : List RelatedResource
  specReferences : List RelatedResource
deriving DecidableEq, Repr

/-- The `discoverRelationships` from relationship-discovery.ts, parametrised by
the outcomes of its four strategy computations (Strategy A `walkOwnersUp`,
B `findChildren`, C `resolveSelectorTargets`, D `resolveSpecReferences`):
each is `catch`-wrapped to the empty list and the four results are assembled
once all complete. -/
def discoverRelationships (sA sB sC sD : StrategyOutcome) : ResourceRelationships :=
  { owners := catchEmpty sA, children := catchEmpty sB,
    selectorTargets := catchEmpty sC, specReferences := catchEmpty sD }

/-! ## Persisted configuration (src/renderer/services/config.ts) -/

/-- What a raw JSON config field can look like to `validateConfig`: absent,
present but not a finite JS number, or a finite JS number (modelled in ℚ). -/
inductive JsVal where
  | absent
  | nonNumeric
  | num (q : ℚ)
deriving DecidableEq

/-- The raw persisted document (only the six numeric tunables). -/
structure RawConfig where
  logTailLines : JsVal
  analysisMaxTokens : JsVal
  apiTimeoutMs : JsVal
  resourceCacheTtlMs : JsVal
  logCacheTtlMs : JsVal
  maxRelationshipChildren : JsVal
deriving DecidableEq

/-- The `FreeLensAIConfig` from config.ts. -/
structure FreeLensAIConfig where
  logTailLines : ℚ
  analysisMaxTokens : ℚ
  apiTimeoutMs : ℚ
  resourceCacheTtlMs : ℚ
  logCacheTtlMs : ℚ
  maxRelationshipChildren : ℚ
deriving DecidableEq, Repr

/-- The `DEFAULTS` from config.ts. -/
def DEFAULTS : FreeLensAIConfig :=
  { logTailLines := 500, analysisMaxTokens := 4096, apiTimeoutMs := 45000,
    resourceCacheTtlMs := 300000, logCacheTtlMs := 180000,
    maxRelationshipChildren := 50 }

/-- JS `Math.round`: round half toward positive infinity. -/
def jsRound (q : ℚ) : ℚ := ((⌊q + 1/2⌋ : ℤ) : ℚ)

/-- The `clampInt` from config.ts: fall back when the value is not a finite
number, otherwise clamp the rounded value into `[min, max]`. -/
def clampInt (value : JsVal) (lo hi fallback : ℚ) : ℚ :=
  match value with
  | .absent => fallback
  | .nonNumeric => fallback
  | .num q => max lo (min hi (jsRound q))

/-- The `{ ...DEFAULTS, ...raw }` spread: an absent raw field is replaced by
the (numeric) default before clamping. -/
def mergeField (d : ℚ) : JsVal → JsVal
  | .absent => .num d
  | v => v

/-- The `validateConfig` from config.ts. -/
def validateConfig (raw : RawConfig) : FreeLensAIConfig :=
  { logTailLines :=
      clampInt (mergeField DEFAULTS.logTailLines raw.logTailLines)
        10 10000 DEFAULTS.logTailLines,
    analysisMaxTokens :=
      clampInt (mergeField DEFAULTS.analysisMaxTokens raw.analysisMaxTokens)
        256 16384 DEFAULTS.analysisMaxTokens,
    apiTimeoutMs :=
      clampInt (mergeField DEFAULTS.apiTimeoutMs raw.apiTimeoutMs)
        5000 120000 DEFAULTS.apiTimeoutMs,
    resourceCacheTtlMs :=
      clampInt (mergeField DEFAULTS.resourceCacheTtlMs raw.resourceCacheTtlMs)
        0 1800000 DEFAULTS.resourceCacheTtlMs,
    logCacheTtlMs :=
      clampInt (mergeField DEFAULTS.logCacheTtlMs raw.logCacheTtlMs)
        0 1800000 DEFAULTS.logCacheTtlMs,
    maxRelationshipChildren :=
      clampInt (mergeField DEFAULTS.maxRelationshipChildren raw.maxRelationshipChildren)
        10 500 DEFAULTS.maxRelationshipChildren }

/-- The per-field rule of the amended configuration claim, written from the
spec's (corrected) words rather than from the source: fall back to the
hardcoded default when the persisted value is absent or not a finite number;
otherwise clamp the rounded persisted value into the documented `[lo, hi]`
range (so an integer value already in range is returned unchanged, and an
out-of-range value is clamped to the nearer bound, not replaced by the
fallback).  Compared against `validateConfig` in the C8 theorems. -/
def clampSpec (v : JsVal) (lo hi fallback : ℚ) : ℚ :=
  match v with
  | .absent => fallback
  | .nonNumeric => fallback
  | .num q => if q < lo then lo else if hi < q then hi else jsRound q

/-! ## Concrete fixtures used by counterexamples and witnesses -/

/-- An engine on which every pattern compiles (to a matcher that never
matches); in particular `"(a+)+"` compiles, as it does under JS `RegExp`. -/
def engineAll : RegexEngine := fun _ => some (fun _ => false)

/-- An engine on which no pattern compiles. -/
def engineNone : RegexEngine := fun _ => none

/-- An empty pattern store. -/
def store0 : PatternStore := ⟨1, 0, fun _ => none⟩

/-- A candidate whose regex `"(a+)+"` is rejected by `safeRegex`'s first
ReDoS heuristic yet compiles under JS `RegExp`. -/
def candBad : PatternRegex := ⟨"(a+)+", .error, "boom", "d"⟩

/-- An engine for the overlap-merge scenario: `"E"` matches lines starting
with `E`, `"ER"` matches lines starting with `ER`. -/
def engineW : RegexEngine := fun p =>
  if p = "E" then some (fun l => jsStartsWith l "E")
  else if p = "ER" then some (fun l => jsStartsWith l "ER")
  else none

/-- A stored pattern with regex `"E"` and hit count 3. -/
def epW : StoredPattern := ⟨"1", "e", "E", .error, 0, 3, "", ""⟩

/-- A store holding `epW` in scope `"s"`. -/
def storeW : PatternStore := ⟨1, 0, fun s => if s = "s" then some [epW] else none⟩

/-- A candidate with regex `"ER"` whose matches are a subset of `epW`'s. -/
def candW : PatternRegex := ⟨"ER", .error, "er", ""⟩

/-- The log lines of the overlap-merge scenario. -/
def logLinesW : List String := ["ERx", "ERy", "Ez", "w"]

/-- A plain HTTP 503 error. -/
def err503 : JsError := ⟨some "APIError", some 503, none⟩

/-- A plain HTTP 403 error. -/
def err403 : JsError := ⟨some "APIError", some 403, none⟩

/-- An operation failing with 503 on its first two invocations and succeeding
on the third. -/
def fn503 : Nat → Except JsError Nat := fun n => if n ≤ 1 then .error err503 else .ok 42

/-- An operation always failing with 403. -/
def fn403 : Nat → Except JsError Nat := fun _ => .error err403

/-- A cluster API on which every request fails. -/
def apiNone : String → Option (List KObj) := fun _ => none

/-- A namespace-less object with a uid and core `apiVersion` (so the child
search runs all built-in batches and no supplemental pass). -/
def objU : KObj := ⟨some "Widget", some "v1", some ⟨some "w", none, some "u", []⟩, none, none⟩

/-- Owner reference from the starting pod to a Deployment. -/
def refA : OwnerRef := ⟨"Deployment", "web", some "apps/v1", some "uidA"⟩

/-- Owner reference from the Deployment to an unfetchable object. -/
def refB : OwnerRef := ⟨"Thing", "t", some "example.com/v1", some "uidB"⟩

/-- The Deployment: it is fetchable and owned (per `refB`) by an object whose
fetch fails. -/
def objA : KObj :=
  ⟨some "Deployment", some "apps/v1", some ⟨some "web", some "ns", some "uidA", [refB]⟩,
   none, none⟩

/-- The starting pod, owned by `objA`. -/
def objC3 : KObj :=
  ⟨some "Pod", some "v1", some ⟨some "p", some "ns", some "u", [refA]⟩, none, none⟩

/-- A cluster API that resolves only the Deployment: fetching the depth-1
owner (`refB`) fails. -/
def apiC3 : String → Option KObj := fun p =>
  if p = "/apis/apps/v1/namespaces/ns/deployments/web" then some objA else none

/-- A full two-entry cache over cluster id `"c"`. -/
def cacheW : CacheMap Nat := [("c:a", ⟨0, 1⟩), ("c:b", ⟨1, 2⟩)]

/-! ## Theorems -/

/-- C4: `discoverRelationships` never throws: for every outcome of the four
strategy computations it returns an assembled `ResourceRelationships` in which
a failing strategy contributes the empty list for its category while each
succeeding strategy's result is returned unchanged. -/
theorem discoverRelationships_fault_isolated (sA sB sC sD : StrategyOutcome) :
    (discoverRelationships sA sB sC sD).owners =
      (match sA with | .ok l => l | .error _ => []) ∧
    (discoverRelationships sA sB sC sD).children =
      (match sB with | .ok l => l | .error _ => []) ∧
    (discoverRelationships sA sB sC sD).selectorTargets =
      (match sC with | .ok l => l | .error _ => []) ∧
    (discoverRelationships sA sB sC sD).specReferences =
      (match sD with | .ok l => l | .error _ => []) := by
  refine ⟨?_, ?_, ?_, ?_⟩
  · cases sA <;> rfl
  · cases sB <;> rfl
  · cases sC <;> rfl
  · cases sD <;> rfl

/-- C3: evaluating the owner walk on an object whose depth-1 owner cannot be
fetched.  The walk does *not* stop at depth 1: it re-reads the same
`ownerReferences` of the stuck `current` and emits duplicate entries for
depths 2..5, because the `current === object && depth === 0` check (under the
source comment "If we couldn't fetch the owner, stop walking") only stops at
depth 0. -/
theorem walkOwnersUp_failed_fetch_keeps_walking :
    (walkOwnersUp apiC3 objC3).map (fun r => r.relationship) =
      ["direct owner", "owner (depth 2)", "owner (depth 3)",
       "owner (depth 4)", "owner (depth 5)"] := by
  decide

/-- C1 (counterexample): the candidate regex `"(a+)+"` fails safe compilation
(`safeRegex` rejects it via the nested-quantifier heuristic), yet
`mergeAIPatterns` inserts a `StoredPattern` for it into the scope, because the
merge validates candidates with a plain `new RegExp` only. -/
theorem mergeAIPatterns_inserts_safeRegex_rejected_pattern :
    safeRegex engineAll candBad.regex = none ∧
    ((mergeAIPatterns engineAll store0 "s" [candBad] (fun _ => none) none 0
        (fun _ => "id")).scopes "s").map List.length = some 1 :=
  ⟨rfl, rfl⟩

/-- C1 (amended): a candidate whose regex fails to *compile* (`new RegExp`
throws, i.e. the engine returns `none`) is rejected by `mergeAIPatterns`: the
merge proceeds exactly as if the candidate had not been passed at all, so no
`StoredPattern` is inserted and no existing pattern is modified on account of
it. -/
theorem mergeAIPatterns_skips_uncompilable_candidate (engine : RegexEngine)
    (store : PatternStore) (scope : String) (cand : PatternRegex)
    (rest : List PatternRegex) (examples : String → Option String)
    (logLines : Option (List String)) (now : Nat) (genId : Nat → String)
    (h : engine cand.regex = none) :
    mergeAIPatterns engine store scope (cand :: rest) examples logLines now genId =
      mergeAIPatterns engine store scope rest examples logLines now genId := by
  simp only [mergeAIPatterns, List.foldl_cons, mergeOne, h]

/-- Witness for the amended C1 theorem at a concrete uncompilable candidate. -/
theorem mergeAIPatterns_skips_uncompilable_candidate_witness :
    mergeAIPatterns engineNone store0 "s" [candBad] (fun _ => none) none 0
        (fun _ => "id") =
      mergeAIPatterns engineNone store0 "s" [] (fun _ => none) none 0
        (fun _ => "id") :=
  mergeAIPatterns_skips_uncompilable_candidate engineNone store0 "s" candBad []
    (fun _ => none) none 0 (fun _ => "id") rfl

/-- C5: with `maxRetries = 2` and no cancellation, an operation failing with
HTTP 503 on its first two invocations and succeeding on the third returns the
success value after exactly 3 invocations, and an operation failing with HTTP
403 is invoked exactly once with the error rethrown. -/
theorem retryWithBackoff_503_retried_403_fail_fast {T : Type}
    (fn g : Nat → Except JsError T) (e0 e1 e : JsError) (v : T)
    (onUnauthorized : Option (Nat → Bool))
    (h0 : fn 0 = .error e0) (hs0 : e0.status = some 503)
    (hn0 : e0.name ≠ some "AbortError")
    (h1 : fn 1 = .error e1) (hs1 : e1.status = some 503)
    (hn1 : e1.name ≠ some "AbortError")
    (h2 : fn 2 = .ok v)
    (hg : ∀ n, g n = .error e) (hge : e.status = some 403) :
    retryWithBackoff fn (fun _ => false) (fun _ => false) 2 onUnauthorized = (.ok v, 3) ∧
    retryWithBackoff g (fun _ => false) (fun _ => false) 2 onUnauthorized = (.error e, 1) := by
  constructor
  · simp only [retryWithBackoff, retryLoop, h0, h1, h2, hs0, hs1, hn0, hn1,
      Bool.false_eq_true, if_false]
    norm_num [NON_RETRYABLE_STATUS_CODES, RETRYABLE_STATUS_CODES]
  · by_cases he : e.name = some "AbortError"
    · simp only [retryWithBackoff, retryLoop, hg 0, he, Bool.false_eq_true, if_false,
        if_true]
    · simp only [retryWithBackoff, retryLoop, hg 0, he, hge, Bool.false_eq_true, if_false]
      norm_num [NON_RETRYABLE_STATUS_CODES]

/-- Witness for the C5 theorem at concrete operations. -/
theorem retryWithBackoff_503_retried_403_fail_fast_witness :
    retryWithBackoff fn503 (fun _ => false) (fun _ => false) 2 (some (fun _ => true))
      = (.ok 42, 3) ∧
    retryWithBackoff fn403 (fun _ => false) (fun _ => false) 2 (some (fun _ => true))
      = (.error err403, 1) :=
  retryWithBackoff_503_retried_403_fail_fast fn503 fn403 err503 err503 err403 42
    (some (fun _ => true)) rfl rfl (by decide) rfl rfl (by decide) rfl
    (fun _ => rfl) rfl

/-- The early-return counting loop of `validatePatternRegexes` succeeds
exactly when the total number of matching lines reaches the threshold
(for any in-range starting count; the threshold `MIN_PATTERN_MATCHES` is 3). -/
theorem hasMinMatches_iff_countP (regex : String → Bool) (lines : List String)
    (c : Nat) (hc : c < 3) :
    hasMinMatches regex lines c = true ↔
      3 ≤ c + lines.countP (fun l => safeRegexTest regex l) := by
  induction lines generalizing c with
  | nil =>
    simp only [hasMinMatches, List.countP_nil, Nat.add_zero, Bool.false_eq_true, false_iff]
    omega
  | cons l rest ih =>
    by_cases hl : safeRegexTest regex l
    · simp only [hasMinMatches, hl, if_true, MIN_PATTERN_MATCHES, List.countP_cons, ge_iff_le]
      by_cases hreach : 3 ≤ c + 1
      · simp only [hreach, if_true, true_iff]
        omega
      · have hc' : c + 1 < 3 := by omega
        simp only [hreach, if_false, ih (c + 1) hc']
        omega
    · simp only [hasMinMatches, hl, List.countP_cons, Bool.false_eq_true, if_false,
        ih c hc]
      omega

/-- C10: a backend-returned pattern regex is kept by the `patternRegexes`
post-processing of `analyzeLogsFn` exactly when it was returned, passes
`safeRegex`, and matches at least `MIN_PATTERN_MATCHES` (3) of the analyzed
log lines under `safeRegexTest`; every other returned pattern is removed. -/
theorem finalizePatternRegexes_keeps_iff (engine : RegexEngine)
    (ps : List PatternRegex) (lines : List String) (p : PatternRegex) :
    p ∈ (finalizePatternRegexes engine (some ps) lines).getD [] ↔
      p ∈ ps ∧ ∃ r, safeRegex engine p.regex = some r ∧
        MIN_PATTERN_MATCHES ≤ lines.countP (fun l => safeRegexTest r l) := by
  rw [show MIN_PATTERN_MATCHES = 3 from rfl]
  rcases ps with _ | ⟨q, qs⟩
  · simp [finalizePatternRegexes]
  · have hlen : (q :: qs).length > 0 := by simp
    simp only [finalizePatternRegexes, hlen, if_pos, Option.getD_some,
      validatePatternRegexes]
    have hne : (q :: qs).length = 0 ↔ False := by simp
    rw [if_neg (by simp)]
    rw [List.mem_filter]
    constructor
    · rintro ⟨hmem, hkeep⟩
      refine ⟨hmem, ?_⟩
      rcases hsr : safeRegex engine p.regex with _ | r
      · rw [hsr] at hkeep; exact absurd hkeep (by simp)
      · rw [hsr] at hkeep
        have h3 := (hasMinMatches_iff_countP r lines 0 (by omega)).mp hkeep
        rw [Nat.zero_add] at h3
        exact ⟨r, rfl, h3⟩
    · rintro ⟨hmem, r, hsr, hcount⟩
      refine ⟨hmem, ?_⟩
      rw [hsr]
      refine (hasMinMatches_iff_countP r lines 0 (by omega)).mpr ?_
      rw [Nat.zero_add]
      exact hcount

/-- The built-in batch loop issues at most one batch per chunk. -/
theorem childBatchesLoop_batches_le (api : String → Option (List KObj))
    (timedOut : Nat → Bool) (ns : Option String) (uid : String) (maxChildren : Nat)
    (batches : List (List SearchPath)) (bIdx : Nat) (acc : List RelatedResource) :
    (childBatchesLoop api timedOut ns uid maxChildren batches bIdx acc).2 ≤
      batches.length := by
  induction batches generalizing bIdx acc with
  | nil => simp [childBatchesLoop]
  | cons batch rest ih =>
    rw [childBatchesLoop]
    by_cases ht : timedOut bIdx <;>
    · simp only [ht, if_true, if_false, Bool.false_eq_true, List.length_cons]
      by_cases hbrk : maxChildren ≤
          (acc ++ (if timedOut bIdx then []
                   else (batch.map (childBatchQuery api ns uid)).flatten)).length <;>
      · simp only [ht, if_true, if_false, Bool.false_eq_true] at hbrk
        have h1 := ih (bIdx + 1) (acc ++ [])
        have h2 := ih (bIdx + 1)
          (acc ++ (batch.map (childBatchQuery api ns uid)).flatten)
        simp only [hbrk, if_true, if_false]
        omega

/-- The supplemental CRD loop issues at most one request per listed resource. -/
theorem supplementalLoop_requests_le (api : String → Option (List KObj))
    (objApiVersion : String) (ns : Option String) (uid : String) (maxChildren : Nat)
    (resources : List APIResource) (acc : List RelatedResource) :
    (supplementalLoop api objApiVersion ns uid maxChildren resources acc).2 ≤
      resources.length := by
  induction resources generalizing acc with
  | nil => simp [supplementalLoop]
  | cons res rest ih =>
    simp only [supplementalLoop, List.length_cons]
    split
    · have := ih acc
      omega
    · split
      · omega
      · rename_i items hitems h2
        have := ih (acc ++
          ((items.filter (fun item =>
              ((item.metadata.map KMeta.ownerReferences).getD []).any
                (fun ref => ref.uid == some uid))).map
            (fun item =>
              { kind := (res.kind).getD ((item.kind).getD res.name),
                apiVersion := objApiVersion,
                name := ((item.metadata.bind KMeta.name)).getD "",
                nspace := item.metadata.bind KMeta.nspace,
                relationship := "child (owned)",
                status := some (summarizeStatus item),
                detail := none : RelatedResource })))
        omega

/-- C2 (counterexample): on an object with a uid whose child search finds
nothing (every list request fails) and is never cut short, `findChildren`
issues 5 built-in batches — the fixed list has 21 entries, so
`ceil(21/5) = 5`, exceeding the claimed bound of `ceil(20/5) = 4`. -/
theorem findChildren_issues_five_builtin_batches :
    (findChildren apiNone (fun _ => false) (fun _ => []) 50 objU).builtinBatches = 5 ∧
    CHILD_SEARCH_PATHS.length = 21 := by
  constructor
  · rfl
  · rfl

/-- The request bounds hold for the core search regardless of environment. -/
theorem findChildrenCore_request_bounds (api : String → Option (List KObj))
    (timedOut : Nat → Bool) (groupRes : String → List APIResource)
    (maxChildren : Nat) (ns : Option String) (objApiVersion : String) (uid : String) :
    (findChildrenCore api timedOut groupRes maxChildren ns objApiVersion uid).builtinBatches ≤ 5 ∧
    (findChildrenCore api timedOut groupRes maxChildren ns objApiVersion uid).supplementalRequests ≤ 10 := by
  have hbuiltin : (childBatchesLoop api timedOut ns uid maxChildren
      (chunk5 CHILD_SEARCH_PATHS) 0 []).2 ≤ 5 := by
    have h := childBatchesLoop_batches_le api timedOut ns uid maxChildren
      (chunk5 CHILD_SEARCH_PATHS) 0 []
    have h5 : (chunk5 CHILD_SEARCH_PATHS).length = 5 := by rfl
    omega
  unfold findChildrenCore
  dsimp only
  split
  · refine ⟨hbuiltin, ?_⟩
    dsimp only
    have h := supplementalLoop_requests_le api objApiVersion ns uid maxChildren
      (((groupRes objApiVersion).filter
          (fun r => r.namespaced && !(jsIncludesChar r.name '/'))).take 10)
      (childBatchesLoop api timedOut ns uid maxChildren (chunk5 CHILD_SEARCH_PATHS) 0 []).1
    have h10 := List.length_take_le (n := 10)
      (l := (groupRes objApiVersion).filter
        (fun r => r.namespaced && !(jsIncludesChar r.name '/')))
    omega
  · exact ⟨hbuiltin, Nat.zero_le 10⟩

/-- C2 (amended): for every single object and environment, the child search
issues at most `ceil(21/5) = 5` batches of list requests over the well-known
resource types (5 parallel list requests per batch, the last batch holding the
remaining 1), plus at most 10 supplemental CRD-group list requests. -/
theorem findChildren_request_bounds (api : String → Option (List KObj))
    (timedOut : Nat → Bool) (groupRes : String → List APIResource)
    (maxChildren : Nat) (object : KObj) :
    (findChildren api timedOut groupRes maxChildren object).builtinBatches ≤ 5 ∧
    (findChildren api timedOut groupRes maxChildren object).supplementalRequests ≤ 10 := by
  unfold findChildren
  cases object.metadata.bind KMeta.uid with
  | none => exact ⟨Nat.zero_le 5, Nat.zero_le 10⟩
  | some uid =>
    exact findChildrenCore_request_bounds api timedOut groupRes maxChildren
      (object.metadata.bind KMeta.nspace) ((object.apiVersion).getD "") uid

/-- Scoping by a fixed cluster id is injective on logical keys. -/
theorem scopedKey_injective (cid : String) : Function.Injective (scopedKey cid) := by
  intro a b h
  unfold scopedKey at h
  have h2 : (cid ++ ":").data ++ a.data = (cid ++ ":").data ++ b.data := by
    have hd := congrArg String.data h
    simpa [String.data_append] using hd
  have h3 : a.data = b.data := List.append_cancel_left h2
  cases a
  cases b
  exact congrArg String.mk h3

/-- The eviction loop drops exactly the oldest entries needed to leave the map
strictly below capacity (or empties it when the capacity is 0). -/
theorem evictWhileFull_eq_drop {T : Type} (maxSize : Nat) (m : CacheMap T) :
    evictWhileFull maxSize m = m.drop (m.length + 1 - maxSize) := by
  induction m with
  | nil => simp [evictWhileFull]
  | cons e rest ih =>
    simp only [evictWhileFull, List.length_cons]
    by_cases h : maxSize ≤ rest.length + 1
    · simp only [h, if_true, ih]
      have harith : rest.length + 1 + 1 - maxSize = (rest.length + 1 - maxSize) + 1 := by
        omega
      rw [harith, List.drop_succ_cons]
    · simp only [h, if_false]
      have harith : rest.length + 1 + 1 - maxSize = 0 := by omega
      rw [harith, List.drop_zero]

/-- The `Map.set` on a fresh key appends. -/
theorem mapSet_fresh {T : Type} (m : CacheMap T) (k : String) (v : CacheEntry T)
    (h : ∀ e ∈ m, e.1 ≠ k) : mapSet m k v = m ++ [(k, v)] := by
  have hany : m.any (fun e => e.1 == k) = false := by
    rw [List.any_eq_false]
    intro e he
    simpa using h e he
  simp [mapSet, hany]

/-- The `Map.set` on a present key keeps the key sequence unchanged. -/
theorem mapSet_keys_of_mem {T : Type} (m : CacheMap T) (k : String) (v : CacheEntry T)
    (h : m.any (fun e => e.1 == k) = true) :
    (mapSet m k v).map Prod.fst = m.map Prod.fst := by
  unfold mapSet
  rw [if_pos h, List.map_map]
  refine List.map_congr_left ?_
  intro e _
  by_cases hek : e.1 = k
  · simp [Function.comp, hek]
  · simp [Function.comp, hek]

/-- The `Map.get` misses when no entry carries the key. -/
theorem mapGet_eq_none {T : Type} (m : CacheMap T) (k : String)
    (h : ∀ e ∈ m, e.1 ≠ k) : mapGet m k = none := by
  have hfind : m.find? (fun e => e.1 == k) = none := by
    rw [List.find?_eq_none]
    intro e he
    simpa using h e he
  simp [mapGet, hfind]

/-- Inserting fresh, pairwise-distinct scoped keys into a map below capacity
keeps a sliding window: the result is the concatenation of old and new
entries with the overflow dropped from the front. -/
theorem cacheSetMany_fresh {T : Type} (cid : String) (maxSize : Nat)
    (hms : 1 ≤ maxSize) (ks : List (String × Nat × T)) :
    ∀ (m : CacheMap T),
      (∀ kv ∈ ks, ∀ e ∈ m, e.1 ≠ scopedKey cid kv.1) →
      ((ks.map (fun kv => scopedKey cid kv.1)).Nodup) →
      m.length ≤ maxSize →
      cacheSetMany cid maxSize m ks =
        (m ++ ks.map (fun kv => (scopedKey cid kv.1,
            (⟨kv.2.1, kv.2.2⟩ : CacheEntry T)))).drop
          (m.length + ks.length - maxSize) := by
  induction ks with
  | nil =>
    intro m _ _ hlen
    have h0 : m.length - maxSize = 0 := by omega
    simp [cacheSetMany, h0]
  | cons kv rest ih =>
    intro m hfresh hnd hnlen
    obtain ⟨k, n, d⟩ := kv
    have hfresh0 : ∀ e ∈ m, e.1 ≠ scopedKey cid k :=
      fun e he => hfresh (k, n, d) (List.mem_cons_self _ _) e he
    rw [List.map_cons, List.nodup_cons] at hnd
    have hhead : scopedKey cid k ∉ rest.map (fun kv => scopedKey cid kv.1) := hnd.1
    have hnd' : (rest.map (fun kv => scopedKey cid kv.1)).Nodup := hnd.2
    have hfreshNew : ∀ kv' ∈ rest,
        (scopedKey cid k, (⟨n, d⟩ : CacheEntry T)).1 ≠ scopedKey cid kv'.1 := by
      intro kv' hkv'
      show scopedKey cid k ≠ scopedKey cid kv'.1
      intro hcontra
      refine hhead ?_
      rw [hcontra]
      exact List.mem_map_of_mem _ hkv'
    by_cases hcap : m.length < maxSize
    · have hev : evictWhileFull maxSize m = m := by
        rw [evictWhileFull_eq_drop]
        have h0 : m.length + 1 - maxSize = 0 := by omega
        simp [h0]
      have hset : cacheSet cid maxSize n m k d =
          m ++ [(scopedKey cid k, (⟨n, d⟩ : CacheEntry T))] := by
        unfold cacheSet
        rw [hev]
        exact mapSet_fresh m _ _ hfresh0
      rw [cacheSetMany, hset]
      have hfresh' : ∀ kv' ∈ rest,
          ∀ e ∈ m ++ [(scopedKey cid k, (⟨n, d⟩ : CacheEntry T))],
            e.1 ≠ scopedKey cid kv'.1 := by
        intro kv' hkv' e he
        rcases List.mem_append.mp he with he | he
        · exact hfresh kv' (List.mem_cons_of_mem _ hkv') e he
        · have he1 : e = (scopedKey cid k, (⟨n, d⟩ : CacheEntry T)) := by simpa using he
          subst he1
          exact hfreshNew kv' hkv'
      have hlen' : (m ++ [(scopedKey cid k, (⟨n, d⟩ : CacheEntry T))]).length ≤ maxSize := by
        simp only [List.length_append, List.length_cons, List.length_nil]
        omega
      rw [ih (m ++ [(scopedKey cid k, (⟨n, d⟩ : CacheEntry T))]) hfresh' hnd' hlen']
      rw [List.map_cons, List.append_assoc, List.singleton_append]
      congr 1
      simp only [List.length_append, List.length_cons, List.length_nil]
      omega
    · have hmlen : m.length = maxSize := by omega
      rcases m with _ | ⟨a, m2⟩
      · simp only [List.length_nil] at hmlen
        omega
      · have hev : evictWhileFull maxSize (a :: m2) = m2 := by
          rw [evictWhileFull_eq_drop]
          have h1 : (a :: m2).length + 1 - maxSize = 1 := by
            simp only [List.length_cons] at hmlen ⊢
            omega
          rw [h1, List.drop_succ_cons, List.drop_zero]
        have hfreshev : ∀ e ∈ m2, e.1 ≠ scopedKey cid k :=
          fun e he => hfresh0 e (List.mem_cons_of_mem _ he)
        have hset : cacheSet cid maxSize n (a :: m2) k d =
            m2 ++ [(scopedKey cid k, (⟨n, d⟩ : CacheEntry T))] := by
          unfold cacheSet
          rw [hev]
          exact mapSet_fresh m2 _ _ hfreshev
        rw [cacheSetMany, hset]
        have hfresh' : ∀ kv' ∈ rest,
            ∀ e ∈ m2 ++ [(scopedKey cid k, (⟨n, d⟩ : CacheEntry T))],
              e.1 ≠ scopedKey cid kv'.1 := by
          intro kv' hkv' e he
          rcases List.mem_append.mp he with he | he
          · exact hfresh kv' (List.mem_cons_of_mem _ hkv') e
              (List.mem_cons_of_mem _ he)
          · have he1 : e = (scopedKey cid k, (⟨n, d⟩ : CacheEntry T)) := by simpa using he
            subst he1
            exact hfreshNew kv' hkv'
        have hlen' : (m2 ++ [(scopedKey cid k, (⟨n, d⟩ : CacheEntry T))]).length ≤ maxSize := by
          simp only [List.length_append, List.length_cons, List.length_nil]
          simp only [List.length_cons] at hmlen
          omega
        rw [ih (m2 ++ [(scopedKey cid k, (⟨n, d⟩ : CacheEntry T))]) hfresh' hnd' hlen']
        have hc : (a :: m2).length + (rest.length + 1) - maxSize =
            ((m2 ++ [(scopedKey cid k, (⟨n, d⟩ : CacheEntry T))]).length +
              rest.length - maxSize) + 1 := by
          simp only [List.length_cons, List.length_append, List.length_nil]
          simp only [List.length_cons] at hmlen
          omega
        rw [List.map_cons, List.cons_append]
        rw [show ((k, n, d) :: rest).length = rest.length + 1 from by
          simp [List.length_cons]]
        rw [hc, List.drop_succ_cons, List.append_assoc, List.singleton_append]

/-- C6 (counterexample): with capacity `maxSize = 0`, inserting `maxSize + 1
= 1` distinct key leaves 1 entry (not `maxSize = 0`) and the first-inserted
key is still present: the eviction loop stops on the empty map and `set` then
inserts. -/
theorem boundedCache_capacity_zero_keeps_entry :
    (cacheSetMany "c" 0 ([] : CacheMap Nat) [("a", 0, 1)]).length = 1 ∧
    mapGet (cacheSetMany "c" 0 ([] : CacheMap Nat) [("a", 0, 1)])
      (scopedKey "c" "a") = some ⟨0, 1⟩ := by
  constructor
  · rfl
  · rfl

/-- C6 (amended): for a `BoundedCache` with capacity `maxSize ≥ 1` and a fixed
active-cluster id, after inserting `maxSize + 1` distinct keys into the empty
cache (no gets, no TTL expiry), the map holds exactly the last `maxSize`
inserts in insertion order — so exactly `maxSize` entries remain, the
first-inserted key is absent, and the one insert made at capacity evicted
exactly the single oldest-inserted entry. -/
theorem boundedCache_overflow_evicts_oldest {T : Type} (maxSize : Nat)
    (cid : String) (kv0 : String × Nat × T) (tl : List (String × Nat × T))
    (hms : 1 ≤ maxSize)
    (hlen : (kv0 :: tl).length = maxSize + 1)
    (hnd : ((kv0 :: tl).map (fun kv => kv.1)).Nodup) :
    cacheSetMany cid maxSize [] (kv0 :: tl) =
      tl.map (fun kv => (scopedKey cid kv.1, (⟨kv.2.1, kv.2.2⟩ : CacheEntry T))) ∧
    (cacheSetMany cid maxSize [] (kv0 :: tl)).length = maxSize ∧
    mapGet (cacheSetMany cid maxSize [] (kv0 :: tl)) (scopedKey cid kv0.1) = none := by
  have hndScoped : (((kv0 :: tl).map (fun kv => kv.1)).map (scopedKey cid)).Nodup :=
    hnd.map (scopedKey_injective cid)
  have hndScoped' : ((kv0 :: tl).map (fun kv => scopedKey cid kv.1)).Nodup := by
    rw [List.map_map] at hndScoped
    exact hndScoped
  have hmain := cacheSetMany_fresh cid maxSize hms (kv0 :: tl) []
    (fun kv _ e he => absurd he (List.not_mem_nil e)) hndScoped'
    (by simp)
  have hdrop : (([] : CacheMap T) ++ (kv0 :: tl).map
        (fun (kv : String × Nat × T) => (scopedKey cid kv.1,
          (⟨kv.2.1, kv.2.2⟩ : CacheEntry T)))).drop
      (([] : CacheMap T).length + ((kv0 :: tl)).length - maxSize) =
      tl.map (fun (kv : String × Nat × T) => (scopedKey cid kv.1,
        (⟨kv.2.1, kv.2.2⟩ : CacheEntry T))) := by
    rw [List.nil_append, List.map_cons]
    have h1 : ([] : CacheMap T).length + ((kv0 :: tl)).length - maxSize = 1 := by
      simp only [List.length_nil, List.length_cons] at hlen ⊢
      omega
    rw [h1, List.drop_succ_cons, List.drop_zero]
  have heq : cacheSetMany cid maxSize [] (kv0 :: tl) =
      tl.map (fun kv => (scopedKey cid kv.1, (⟨kv.2.1, kv.2.2⟩ : CacheEntry T))) := by
    rw [hmain, hdrop]
  refine ⟨heq, ?_, ?_⟩
  · rw [heq, List.length_map]
    simp only [List.length_cons] at hlen
    omega
  · rw [heq]
    refine mapGet_eq_none _ _ ?_
    intro e he
    obtain ⟨kv, hkv, hkve⟩ := List.mem_map.mp he
    rw [← hkve]
    show scopedKey cid kv.1 ≠ scopedKey cid kv0.1
    intro hcontra
    have hk : kv.1 = kv0.1 := scopedKey_injective cid hcontra
    have hnotin : kv0.1 ∉ tl.map (fun kv => kv.1) := by
      rw [List.map_cons, List.nodup_cons] at hnd
      exact hnd.1
    exact hnotin (hk ▸ List.mem_map_of_mem (fun kv => kv.1) hkv)

/-- Witness for the amended C6 theorem: capacity 2, three distinct keys. -/
theorem boundedCache_overflow_evicts_oldest_witness :
    cacheSetMany "c" 2 ([] : CacheMap Nat) [("a", 0, 1), ("b", 1, 2), ("d", 2, 3)] =
      [("b", 1, 2), ("d", 2, 3)].map
        (fun kv => (scopedKey "c" kv.1, (⟨kv.2.1, kv.2.2⟩ : CacheEntry Nat))) ∧
    (cacheSetMany "c" 2 ([] : CacheMap Nat)
      [("a", 0, 1), ("b", 1, 2), ("d", 2, 3)]).length = 2 ∧
    mapGet (cacheSetMany "c" 2 ([] : CacheMap Nat)
      [("a", 0, 1), ("b", 1, 2), ("d", 2, 3)]) (scopedKey "c" "a") = none :=
  boundedCache_overflow_evicts_oldest 2 "c" ("a", 0, 1) [("b", 1, 2), ("d", 2, 3)]
    (by decide) (by decide) (by decide)

/-- C9: if `set(k, v)` runs while the cache is at capacity and `k` is already
present but is not the oldest entry, the oldest entry is still evicted before
the write, so an unrelated key disappears and the cache holds `maxSize - 1`
entries afterwards. -/
theorem boundedCache_set_at_capacity_existing_key_still_evicts {T : Type}
    (maxSize : Nat) (cid k : String) (n : Nat) (d : T)
    (e0 : String × CacheEntry T) (rest : CacheMap T)
    (hlen : (e0 :: rest).length = maxSize)
    (hnd : ((e0 :: rest).map Prod.fst).Nodup)
    (hmem : scopedKey cid k ∈ rest.map Prod.fst) :
    (cacheSet cid maxSize n (e0 :: rest) k d).length = maxSize - 1 ∧
    e0.1 ∉ (cacheSet cid maxSize n (e0 :: rest) k d).map Prod.fst := by
  have hev : evictWhileFull maxSize (e0 :: rest) = rest := by
    rw [evictWhileFull_eq_drop]
    have h1 : (e0 :: rest).length + 1 - maxSize = 1 := by omega
    rw [h1, List.drop_succ_cons, List.drop_zero]
  have hany : rest.any (fun e => e.1 == scopedKey cid k) = true := by
    rw [List.any_eq_true]
    obtain ⟨e, he, heq⟩ := List.mem_map.mp hmem
    exact ⟨e, he, by simp [heq]⟩
  constructor
  · show (mapSet (evictWhileFull maxSize (e0 :: rest)) (scopedKey cid k)
      ⟨n, d⟩).length = maxSize - 1
    rw [hev]
    unfold mapSet
    rw [if_pos hany, List.length_map]
    simp only [List.length_cons] at hlen
    omega
  · show e0.1 ∉ (mapSet (evictWhileFull maxSize (e0 :: rest)) (scopedKey cid k)
      ⟨n, d⟩).map Prod.fst
    rw [hev, mapSet_keys_of_mem rest _ _ hany]
    rw [List.map_cons, List.nodup_cons] at hnd
    exact hnd.1

/-- Witness for the C9 theorem: capacity 2, overwrite of the newer key. -/
theorem boundedCache_set_at_capacity_existing_key_still_evicts_witness :
    (cacheSet "c" 2 9 (("c:a", ⟨0, 1⟩) :: [("c:b", ⟨1, 2⟩)]) "b" (5 : Nat)).length
      = 2 - 1 ∧
    ("c:a", (⟨0, 1⟩ : CacheEntry Nat)).1 ∉
      (cacheSet "c" 2 9 (("c:a", ⟨0, 1⟩) :: [("c:b", ⟨1, 2⟩)]) "b" (5 : Nat)).map
        Prod.fst :=
  boundedCache_set_at_capacity_existing_key_still_evicts 2 "c" "b" 9 5
    ("c:a", ⟨0, 1⟩) [("c:b", ⟨1, 2⟩)] (by decide) (by decide) (by decide)

/-- The overlap-dedup loop bumps exactly the first existing pattern whose
compiled regex covers at least 80% of the candidate's matched lines, and
leaves everything else in place. -/
theorem bumpOverlap_first (engine : RegexEngine) (newMatches : List String)
    (pre post : List StoredPattern) (ep : StoredPattern) (em : String → Bool)
    (hpre : ∀ e ∈ pre, ∀ r, engine e.regex = some r →
      ¬((((newMatches.filter (fun l => r l)).length : ℚ) /
          (newMatches.length : ℚ)) ≥ 0.8))
    (hep : engine ep.regex = some em)
    (hratio : (((newMatches.filter (fun l => em l)).length : ℚ) /
        (newMatches.length : ℚ)) ≥ 0.8) :
    bumpOverlap engine newMatches (pre ++ ep :: post) =
      some (pre ++ { ep with hitCount := ep.hitCount + 1 } :: post) := by
  induction pre with
  | nil =>
    simp only [List.nil_append, bumpOverlap, hep]
    rw [if_pos hratio]
  | cons e pre' ih =>
    have ih' := ih (fun x hx => hpre x (List.mem_cons_of_mem _ hx))
    rcases he : engine e.regex with _ | r
    · simp only [List.cons_append, bumpOverlap, he, List.append_eq, ih']
    · have hfail := hpre e (List.mem_cons_self _ _) r he
      simp only [List.cons_append, bumpOverlap, he, List.append_eq]
      rw [if_neg hfail]
      simp only [ih']

/-- C7: when `mergeAIPatterns` is called with non-empty `recentLogLines` and a
single candidate that is not an exact regex duplicate, matches at least one
log line, and whose matched lines are covered to a fraction ≥ 0.8 by some
existing pattern of the scope (the scope being within its cap), the first such
existing pattern's `hitCount` is incremented by 1 and no new `StoredPattern`
is added to the scope. -/
theorem mergeAIPatterns_overlap_bumps_existing (engine : RegexEngine)
    (store : PatternStore) (scope : String) (cand : PatternRegex)
    (examples : String → Option String) (logLines : List String)
    (now : Nat) (genId : Nat → String) (pre post : List StoredPattern)
    (ep : StoredPattern) (m em : String → Bool)
    (hscope : store.scopes scope = some (pre ++ ep :: post))
    (hcap : (pre ++ ep :: post).length ≤ MAX_PATTERNS_PER_SCOPE)
    (hm : engine cand.regex = some m)
    (hnodup : ∀ e ∈ pre ++ ep :: post, e.regex ≠ cand.regex)
    (hlines : logLines ≠ [])
    (hmatches : logLines.filter m ≠ [])
    (hpre : ∀ e ∈ pre, ∀ r, engine e.regex = some r →
      ¬(((((logLines.filter m).filter (fun l => r l)).length : ℚ) /
          ((logLines.filter m).length : ℚ)) ≥ 0.8))
    (hep : engine ep.regex = some em)
    (hratio : ((((logLines.filter m).filter (fun l => em l)).length : ℚ) /
        ((logLines.filter m).length : ℚ)) ≥ 0.8) :
    (mergeAIPatterns engine store scope [cand] examples (some logLines) now
        genId).scopes scope =
      some (pre ++ { ep with hitCount := ep.hitCount + 1 } :: post) := by
  have hanyFalse : (pre ++ ep :: post).any (fun e => e.regex == cand.regex) = false := by
    rw [List.any_eq_false]
    intro e he
    simpa using hnodup e he
  have hllen : (0 : Nat) < logLines.length := by
    cases logLines with
    | nil => exact absurd rfl hlines
    | cons a l => simp
  have hmlen : (0 : Nat) < (logLines.filter m).length := by
    cases hfm : logLines.filter m with
    | nil => exact absurd hfm hmatches
    | cons a l => simp
  have hbump := bumpOverlap_first engine (logLines.filter m) pre post ep em hpre hep hratio
  have hone : mergeOne engine examples (some logLines) now genId
      (pre ++ ep :: post, 0) cand =
      (pre ++ { ep with hitCount := ep.hitCount + 1 } :: post, 0) := by
    unfold mergeOne
    rw [hm]
    simp only [hanyFalse, Bool.false_eq_true, if_false]
    rw [if_pos hllen, if_pos hmlen, hbump]
  unfold mergeAIPatterns
  rw [hscope]
  simp only [Option.getD_some, List.foldl_cons, List.foldl_nil, hone]
  have hcapFalse : ¬((pre ++ { ep with hitCount := ep.hitCount + 1 } :: post).length >
      MAX_PATTERNS_PER_SCOPE) := by
    simp only [List.length_append, List.length_cons] at hcap ⊢
    omega
  rw [if_neg hcapFalse]
  simp

/-- Witness for the C7 theorem: candidate `"ER"` against stored `"E"` whose
matches cover all of the candidate's two matched lines. -/
theorem mergeAIPatterns_overlap_bumps_existing_witness :
    (mergeAIPatterns engineW storeW "s" [candW] (fun _ => none) (some logLinesW) 7
        (fun n => toString n)).scopes "s" =
      some ([] ++ { epW with hitCount := epW.hitCount + 1 } :: []) :=
  mergeAIPatterns_overlap_bumps_existing engineW storeW "s" candW (fun _ => none)
    logLinesW 7 (fun n => toString n) [] [] epW
    (fun l => jsStartsWith l "ER") (fun l => jsStartsWith l "E")
    rfl (by decide) rfl (by decide) (by decide) (by decide)
    (by intro e he; exact absurd he (List.not_mem_nil e)) rfl
    (by
      have h2 : List.filter (fun l => jsStartsWith l "ER") logLinesW =
          ["ERx", "ERy"] := by decide
      rw [h2]
      have h3 : List.filter (fun l => (fun l => jsStartsWith l "E") l)
          ["ERx", "ERy"] = ["ERx", "ERy"] := by decide
      rw [h3]
      norm_num)

/-- The `Math.round` is monotone. -/
theorem jsRound_le_jsRound {a b : ℚ} (h : a ≤ b) : jsRound a ≤ jsRound b := by
  unfold jsRound
  exact_mod_cast Int.floor_le_floor (by linarith)

/-- The `Math.round` fixes integers. -/
theorem jsRound_intCast (n : ℤ) : jsRound (n : ℚ) = (n : ℚ) := by
  unfold jsRound
  rw [Int.floor_int_add]
  norm_num

/-- The `Math.round` fixes naturals. -/
theorem jsRound_natCast (n : ℕ) : jsRound (n : ℚ) = (n : ℚ) := by
  have h := jsRound_intCast (n : ℤ)
  push_cast at h
  exact h

/-- The `clampInt` composed with the `{ ...DEFAULTS, ...raw }` merge agrees with
the spec-side `clampSpec` rule whenever the bounds and the default are
integers with `lo ≤ default ≤ hi`. -/
theorem clampInt_merge_eq_clampSpec (lo hi d : ℚ)
    (hlo : jsRound lo = lo) (hhi : jsRound hi = hi) (hlohi : lo ≤ hi)
    (hdlo : lo ≤ d) (hdhi : d ≤ hi) (hdint : jsRound d = d) (v : JsVal) :
    clampInt (mergeField d v) lo hi d = clampSpec v lo hi d := by
  cases v with
  | absent =>
    simp only [mergeField, clampInt, clampSpec, hdint]
    rw [min_eq_right hdhi]
    exact max_eq_right hdlo
  | nonNumeric => rfl
  | num q =>
    simp only [mergeField, clampInt, clampSpec]
    by_cases h1 : q < lo
    · rw [if_pos h1]
      have hle : jsRound q ≤ lo := hlo ▸ jsRound_le_jsRound h1.le
      rw [min_eq_right (le_trans hle hlohi)]
      exact max_eq_left hle
    · rw [if_neg h1]
      by_cases h2 : hi < q
      · rw [if_pos h2]
        have hge : hi ≤ jsRound q := hhi ▸ jsRound_le_jsRound h2.le
        rw [min_eq_left hge]
        exact max_eq_right hlohi
      · rw [if_neg h2]
        push_neg at h1 h2
        have hlow : lo ≤ jsRound q := hlo ▸ jsRound_le_jsRound h1
        have hhigh : jsRound q ≤ hi := hhi ▸ jsRound_le_jsRound h2
        rw [min_eq_right hhigh]
        exact max_eq_right hlow

/-- C8 (counterexample): persisting `logTailLines = 5` (below the documented
minimum 10) yields the clamped value 10, not the hardcoded fallback 500 — so
an out-of-range persisted value is clamped, not replaced by the fallback. -/
theorem validateConfig_out_of_range_is_clamped_not_fallback :
    (validateConfig ⟨.num 5, .absent, .absent, .absent, .absent, .absent⟩).logTailLines
      = 10 ∧
    ¬((10 : ℚ) ≤ 5) ∧ (10 : ℚ) ≠ 500 ∧ (10 : ℚ) ≠ 5 := by
  refine ⟨?_, by norm_num, by norm_num, by norm_num⟩
  simp only [validateConfig, DEFAULTS, mergeField, clampInt]
  rw [show jsRound 5 = 5 from by exact_mod_cast jsRound_natCast 5]
  norm_num

/-- C8 (amended): loading configuration yields, for each numeric tunable, the
hardcoded fallback when the persisted value is absent or not a finite number,
and otherwise the persisted value rounded and clamped into the documented
`[min, max]` range (in particular an in-range integer value is returned
unchanged, while an out-of-range value becomes the nearer bound). -/
theorem validateConfig_eq_clampSpec (raw : RawConfig) :
    validateConfig raw =
      { logTailLines := clampSpec raw.logTailLines 10 10000 500,
        analysisMaxTokens := clampSpec raw.analysisMaxTokens 256 16384 4096,
        apiTimeoutMs := clampSpec raw.apiTimeoutMs 5000 120000 45000,
        resourceCacheTtlMs := clampSpec raw.resourceCacheTtlMs 0 1800000 300000,
        logCacheTtlMs := clampSpec raw.logCacheTtlMs 0 1800000 180000,
        maxRelationshipChildren := clampSpec raw.maxRelationshipChildren 10 500 50 } := by
  have hj : ∀ n : ℕ, jsRound (OfNat.ofNat n : ℚ) = OfNat.ofNat n := by
    intro n
    have h := jsRound_natCast n
    simpa using h
  simp only [validateConfig, DEFAULTS]
  rw [clampInt_merge_eq_clampSpec 10 10000 500
        (by exact_mod_cast jsRound_natCast 10) (by exact_mod_cast jsRound_natCast 10000)
        (by norm_num) (by norm_num) (by norm_num) (by exact_mod_cast jsRound_natCast 500),
      clampInt_merge_eq_clampSpec 256 16384 4096
        (by exact_mod_cast jsRound_natCast 256) (by exact_mod_cast jsRound_natCast 16384)
        (by norm_num) (by norm_num) (by norm_num) (by exact_mod_cast jsRound_natCast 4096),
      clampInt_merge_eq_clampSpec 5000 120000 45000
        (by exact_mod_cast jsRound_natCast 5000) (by exact_mod_cast jsRound_natCast 120000)
        (by norm_num) (by norm_num) (by norm_num) (by exact_mod_cast jsRound_natCast 45000),
      clampInt_merge_eq_clampSpec 0 1800000 300000
        (by exact_mod_cast jsRound_natCast 0) (by exact_mod_cast jsRound_natCast 1800000)
        (by norm_num) (by norm_num) (by norm_num) (by exact_mod_cast jsRound_natCast 300000),
      clampInt_merge_eq_clampSpec 0 1800000 180000
        (by exact_mod_cast jsRound_natCast 0) (by exact_mod_cast jsRound_natCast 1800000)
        (by norm_num) (by norm_num) (by norm_num) (by exact_mod_cast jsRound_natCast 180000),
      clampInt_merge_eq_clampSpec 10 500 50
        (by exact_mod_cast jsRound_natCast 10) (by exact_mod_cast jsRound_natCast 500)
        (by norm_num) (by norm_num) (by norm_num) (by exact_mod_cast jsRound_natCast 50)]

end FreelensAI
